import Mathlib

/-!
Verification development for the pygreynoise client library
(`src/greynoise/api.py` and `src/greynoise/util.py`).

The Python source is shallowly embedded: pure helpers become Lean
functions; the HTTP layer is modelled by scripting the JSON responses a
run would receive and logging the requests it would issue; Python
exceptions become an explicit `PyError` sum carried in `Except`.
-/

namespace GN

/-! ### Python exceptions -/

/-- Errors raised by the embedded code.
`valueError` and `keyError` model the builtin Python exceptions.
`requestFailure` models `greynoise.exceptions.RequestFailure` (that module
is not part of the sources; per the spec it is a request-failure error
carrying the original HTTP status code and response body).
`noScriptedResponse` is a model artifact: it is returned when a simulated
run needs one more HTTP response than its script provides, and corresponds
to no Python exception. -/
inductive PyError where
  | valueError (msg : String)
  | keyError (key : String)
  | requestFailure (status : Nat) (body : String)
  | noScriptedResponse
deriving DecidableEq, Repr

/-! ### Character classes (C locale, as used by glibc `inet_aton`/`strtoul`) -/

/-- Value of an ASCII decimal digit. -/
def digitVal (c : Char) : Nat := c.toNat - '0'.toNat

/-- C `isdigit`: letters a-f/A-F or a decimal digit (hexadecimal digit). -/
def isHexDigitChar (c : Char) : Bool :=
  c.isDigit || ('a' ≤ c && c ≤ 'f') || ('A' ≤ c && c ≤ 'F')

/-- Value of a hexadecimal digit. -/
def hexVal (c : Char) : Nat :=
  if c.isDigit then digitVal c
  else if 'a' ≤ c && c ≤ 'f' then c.toNat - 'a'.toNat + 10
  else c.toNat - 'A'.toNat + 10

/-- Octal digit. -/
def isOctDigitChar (c : Char) : Bool := '0' ≤ c && c ≤ '7'

/-- C `isspace` in the C locale: space, tab, newline, vertical tab,
form feed, carriage return. -/
def isCSpace (c : Char) : Bool :=
  c = ' ' || c = '\t' || c = '\n' || c = '\x0b' || c = '\x0c' || c = '\r'

/-! ### `socket.inet_aton`

`greynoise.util.validate_ip` delegates the actual parsing to
`socket.inet_aton`, which CPython forwards to the C library's
`inet_aton`.  The definitions below follow glibc's `inet_aton_end`
(resolv/inet_addr.c): one to four dot-separated numbers, each parsed as a
C number by `strtoul` with base 0 (`0x` prefix = hex, leading `0` =
octal, otherwise decimal); parts before a dot must fit in a byte; the
last part fills the remaining bytes; after the number the string must end
or its next character must be ASCII whitespace. -/

/-- Greedily consume digits accepted by `isD` (with per-digit value `v`
in base `base`), returning the accumulated value and the rest of the
input; the core loop of `strtoul`. -/
def parseNum (isD : Char → Bool) (v : Char → Nat) (base : Nat) :
    List Char → Nat → Nat × List Char
  | [], acc => (acc, [])
  | c :: rest, acc =>
    if isD c then parseNum isD v base rest (base * acc + v c)
    else (acc, c :: rest)

/-- C `strtoul(cp, &endp, 0)` specialised to inputs whose first character
is a decimal digit (which `inet_aton_end` checks before calling it):
`0x`/`0X` followed by a hex digit parses hexadecimal, a leading `0`
parses octal (the `0` alone when no octal digit follows), otherwise
decimal.  Returns the value and the unconsumed suffix. -/
def strtoul0 : List Char → Nat × List Char
  | [] => (0, [])
  | c :: rest =>
    if c = '0' then
      match rest with
      | c' :: rest' =>
        if (c' = 'x' || c' = 'X')
            && (match rest'.head? with
                | some d => isHexDigitChar d
                | none => false) then
          parseNum isHexDigitChar hexVal 16 rest' 0
        else
          parseNum isOctDigitChar digitVal 8 rest 0
      | [] => (0, [])
    else
      parseNum Char.isDigit digitVal 10 (c :: rest) 0

/-- Trailing-character check of glibc `inet_aton_end`: after the last
number the input must be exhausted, or its next character must be ASCII
whitespace (only the first trailing character is inspected). -/
def trailingOk : List Char → Bool
  | [] => true
  | c :: _ => c.toNat ≤ 127 && isCSpace c

/-- Final assembly switch of `inet_aton_end`: combine the stored parts
with the last value according to how many parts were seen
(a / a.b / a.b.c / a.b.c.d), checking the last value's range. -/
def atonAssemble (parts : List Nat) (val : Nat) : Option Nat :=
  match parts with
  | [] => some val
  | [a] => if 0xffffff < val then none else some (val ||| (a <<< 24))
  | [a, b] =>
    if 0xffff < val then none else some (val ||| (a <<< 24) ||| (b <<< 16))
  | [a, b, c] =>
    if 0xff < val then none
    else some (val ||| (a <<< 24) ||| (b <<< 16) ||| (c <<< 8))
  | _ => none

/-- Main loop of `inet_aton_end`.  `allowed` is the number of dots that
may still be consumed (at most three parts may be stored before the last
number); `parts` are the values stored so far.  Each iteration requires a
digit, parses one number, rejects values over `0xffffffff`, and either
stores the value at a dot (rejecting values over `0xff`) or finishes. -/
def atonLoop : Nat → List Char → List Nat → Option Nat
  | allowed, cs, parts =>
    match cs with
    | [] => none
    | c :: _ =>
      if c.isDigit then
        match strtoul0 cs with
        | (val, rest) =>
          if 0xffffffff < val then none
          else
            match rest with
            | r :: rest' =>
              if r = '.' then
                match allowed with
                | 0 => none
                | a + 1 =>
                  if 0xff < val then none
                  else atonLoop a rest' (parts ++ [val])
              else if trailingOk rest then atonAssemble parts val else none
            | [] => if trailingOk [] then atonAssemble parts val else none
      else none

/-- `socket.inet_aton` as called by `validate_ip`: `some` of the parsed
32-bit address when the string is accepted, `none` when the C call fails
(and the Python wrapper raises `socket.error`). -/
def inet_aton (s : String) : Option Nat := atonLoop 3 s.toList []

/-! ### `greynoise.util.validate_ip` (util.py lines 128-146) -/

/-- Python `repr` of a string, for the inputs occurring here (no quotes,
backslashes or control characters in the addresses being validated). -/
def pyRepr (s : String) : String := "'" ++ s ++ "'"

/-- `validate_ip(ip_address, strict)`: returns `True` when
`socket.inet_aton` accepts the string; otherwise raises
`ValueError("Invalid IP address: {!r}")` in strict mode and returns
`False` in permissive mode. -/
def validate_ip (ip_address : String) (strict : Bool) : Except PyError Bool :=
  match inet_aton ip_address with
  | some _ => .ok true
  | none =>
    if strict then
      .error (.valueError ("Invalid IP address: " ++ pyRepr ip_address))
    else .ok false

/-- Truthiness of `validate_ip(ip, strict=False)`, which never raises;
used as the filter predicate in `get_noise_status_bulk`. -/
def validate_ip_permissive (ip_address : String) : Bool :=
  match validate_ip ip_address false with
  | .ok b => b
  | .error _ => false

/-! ### Spec-side definition of a dotted quad

The spec speaks of "IPv4 dotted-quad syntax".  The following definitions
formalise that wording (and only it): exactly four dot-separated decimal
octets, each in 0-255 with no leading zero.  They exist to be compared
with the code's validator and are not part of the embedding of the
source. -/

/-- Split a character list at every dot. -/
def splitDots : List Char → List (List Char)
  | [] => [[]]
  | c :: rest =>
    if c = '.' then [] :: splitDots rest
    else
      match splitDots rest with
      | p :: ps => (c :: p) :: ps
      | [] => [[c]]

/-- Inverse of `splitDots`: interpose a dot between the pieces. -/
def joinDots : List (List Char) → List Char
  | [] => []
  | [p] => p
  | p :: ps => p ++ '.' :: joinDots ps

/-- Decimal value of a digit string. -/
def decValue (cs : List Char) : Nat :=
  cs.foldl (fun a c => 10 * a + digitVal c) 0

/-- A component with a leading zero must be exactly "0". -/
def noLeadingZero : List Char → Bool
  | [] => true
  | c :: rest => c != '0' || rest.isEmpty

/-- One decimal octet of a dotted quad: nonempty, all decimal digits, no
leading zero, value at most 255. -/
def isDecOctet (cs : List Char) : Bool :=
  !cs.isEmpty && cs.all Char.isDigit && noLeadingZero cs
    && decide (decValue cs ≤ 255)

/-- Spec wording: a valid IPv4 dotted quad is four dot-separated decimal
octets. -/
def isDottedQuadSpec (s : String) : Bool :=
  match splitDots s.toList with
  | [a, b, c, d] => isDecOctet a && isDecOctet b && isDecOctet c && isDecOctet d
  | _ => false

/-! ### `greynoise.util.load_config` (util.py lines 42-104) -/

/-- Values of the three recognised keys in the `[greynoise]` section of
the parsed configuration file; `none` when the key is absent.
`ConfigParser` keeps raw strings, so all three are strings. -/
structure FileConf where
  api_key : Option String
  api_server : Option String
  timeout : Option String
deriving DecidableEq, Repr

/-- The three environment variables consulted by `load_config`; `none`
when unset. -/
structure EnvVars where
  GREYNOISE_API_KEY : Option String
  GREYNOISE_API_SERVER : Option String
  GREYNOISE_TIMEOUT : Option String
deriving DecidableEq, Repr

/-- Return value of `load_config`. -/
structure Config where
  api_key : String
  api_server : String
  timeout : Int
deriving DecidableEq, Repr

/-- DEFAULT_CONFIG from util.py lines 14-18 (timeout stringified when fed
to `ConfigParser` as a default, line 51). -/
def DEFAULT_API_KEY : String := ""

/-- Default API server. -/
def DEFAULT_API_SERVER : String := "https://enterprise.api.greynoise.io"

/-- Default timeout, as the string handed to `ConfigParser`. -/
def DEFAULT_TIMEOUT_STR : String := "60"

/-- Digits of a Python `int()` literal after the first: decimal digits
with single underscores allowed between digits (PEP 515). -/
def pyIntDigits : List Char → Nat → Option Nat
  | [], acc => some acc
  | '_' :: c :: rest, acc =>
    if c.isDigit then pyIntDigits rest (10 * acc + digitVal c) else none
  | c :: rest, acc =>
    if c.isDigit then pyIntDigits rest (10 * acc + digitVal c) else none

/-- Python `int(s)` for ASCII inputs: optional surrounding whitespace, an
optional sign, then decimal digits (underscores allowed between digits).
`none` models `int` raising `ValueError`.  (Unicode digits and
whitespace, and the `0x`/`0o`/`0b` forms `int` rejects without an
explicit base anyway, are outside the inputs modelled here.) -/
def pyInt (s : String) : Option Int :=
  let cs := (s.toList.dropWhile isCSpace).reverse.dropWhile isCSpace |>.reverse
  match cs with
  | '+' :: c :: rest =>
    if c.isDigit then (pyIntDigits rest (digitVal c)).map Int.ofNat else none
  | '-' :: c :: rest =>
    if c.isDigit then (pyIntDigits rest (digitVal c)).map (fun n => -(n : Int))
    else none
  | c :: rest =>
    if c.isDigit then (pyIntDigits rest (digitVal c)).map Int.ofNat else none
  | [] => none

/-- `load_config()`: build a `ConfigParser` whose defaults are
`DEFAULT_CONFIG`, overlay the file's `[greynoise]` section when the file
exists (`file = none` models a missing file), then overlay each of the
three environment variables when set; a `GREYNOISE_TIMEOUT` value that
`int()` rejects is logged and ignored.  The final `getint` call parses
the effective timeout string and raises `ValueError` when it is not an
integer literal. -/
def load_config (file : Option FileConf) (env : EnvVars) :
    Except PyError Config :=
  let api_key₀ := ((file.bind FileConf.api_key).getD DEFAULT_API_KEY)
  let api_server₀ := ((file.bind FileConf.api_server).getD DEFAULT_API_SERVER)
  let timeout₀ := ((file.bind FileConf.timeout).getD DEFAULT_TIMEOUT_STR)
  let api_key :=
    match env.GREYNOISE_API_KEY with
    | some k => k
    | none => api_key₀
  let api_server :=
    match env.GREYNOISE_API_SERVER with
    | some s => s
    | none => api_server₀
  let timeoutStr :=
    match env.GREYNOISE_TIMEOUT with
    | some t => if (pyInt t).isSome then t else timeout₀
    | none => timeout₀
  match pyInt timeoutStr with
  | some n => .ok { api_key := api_key, api_server := api_server, timeout := n }
  | none =>
    .error (.valueError ("invalid literal for int() with base 10: "
      ++ pyRepr timeoutStr))

/-! ### HTTP requests (api.py `GreyNoise._request`, lines 69-96) -/

/-- Only `session.get` is ever used. -/
inductive HttpMethod where
  | GET
deriving DecidableEq, Repr

/-- One HTTP request as issued by `GreyNoise._request`: method, full URL,
headers, timeout, query parameters (the only parameter ever passed is the
pagination `offset`) and optional JSON body (the only body ever passed is
the `ips` list of the multi-quick endpoint). -/
structure HttpRequest where
  method : HttpMethod
  url : String
  headers : List (String × String)
  timeout : Int
  params : List (String × Int)
  json : Option (List String)
deriving DecidableEq, Repr

/-- Class constant `GreyNoise.BASE_URL`. -/
def BASE_URL : String := "https://enterprise.api.greynoise.io"

/-- Class constant `GreyNoise.CLIENT_VERSION`. -/
def CLIENT_VERSION : Nat := 1

/-- Class constant `GreyNoise.API_VERSION`. -/
def API_VERSION : String := "v2"

/-- Class constant `GreyNoise.EP_NOISE_BULK`. -/
def EP_NOISE_BULK : String := "noise/bulk"

/-- Class constant `GreyNoise.EP_NOISE_BULK_DATE`, with the date
interpolated by `str.format`. -/
def EP_NOISE_BULK_DATE (date : String) : String := "noise/bulk/" ++ date

/-- Class constant `GreyNoise.EP_NOISE_QUICK`, with the address
interpolated by `str.format`. -/
def EP_NOISE_QUICK (ip_address : String) : String :=
  "noise/quick/" ++ ip_address

/-- Class constant `GreyNoise.EP_NOISE_MULTI`. -/
def EP_NOISE_MULTI : String := "noise/multi/quick"

/-- Request construction of `_request` (lines 85-92): headers
`X-Request-Client` and `key`, URL `"/".join([BASE_URL, API_VERSION,
endpoint])`, the client's timeout, and the given params and JSON body,
sent with `session.get`. -/
def buildRequest (api_key : String) (timeout : Int) (endpoint : String)
    (params : List (String × Int)) (json : Option (List String)) :
    HttpRequest :=
  { method := .GET
  , url := String.intercalate "/" [BASE_URL, API_VERSION, endpoint]
  , headers :=
      [("X-Request-Client", "pyGreyNoise v" ++ toString CLIENT_VERSION),
       ("key", api_key)]
  , timeout := timeout
  , params := params
  , json := json }

/-- Status check of `_request` (lines 93-96): Python's
`status_code not in range(200, 299)` admits exactly 200-298, so any
other status raises `RequestFailure(status_code, content)`; otherwise
the response's JSON payload is returned. -/
def requestCheck {α : Type} (status : Nat) (content : String) (payload : α) :
    Except PyError α :=
  if 200 ≤ status ∧ status < 299 then .ok payload
  else .error (.requestFailure status content)

/-! ### `GreyNoise.get_noise` (api.py lines 98-135)

A run is simulated against a script: the list of JSON payloads that the
successive (successful) HTTP requests would return.  The run yields the
log of requests issued and either the accumulated result or the Python
exception raised. -/

/-- JSON payload of one page of the bulk noise dump, as consumed by
`get_noise`: `response.get("noise_ips", [])`, `response.get("offset",
-1)` and `response["complete"]`; a `none` field models an absent key. -/
structure Page where
  noise_ips : Option (List String)
  offset : Option Int
  complete : Option Bool
deriving DecidableEq, Repr

/-- `response.get("noise_ips", [])`. -/
def pageNoiseIps (p : Page) : List String := p.noise_ips.getD []

/-- `response.get("offset", -1)`. -/
def pageOffset (p : Page) : Int := p.offset.getD (-1)

/-- A Python `datetime.date` value. -/
structure PyDate where
  year : Nat
  month : Nat
  day : Nat
deriving DecidableEq, Repr

/-- Gregorian leap year. -/
def isLeapYear (y : Nat) : Bool := y % 4 = 0 && (y % 100 ≠ 0 || y % 400 = 0)

/-- Days in a month of the proleptic Gregorian calendar. -/
def daysInMonth (y m : Nat) : Nat :=
  if m = 2 then (if isLeapYear y then 29 else 28)
  else if m = 4 || m = 6 || m = 9 || m = 11 then 30
  else 31

/-- The invariant every constructed `datetime.date` satisfies: a valid
calendar date in years 1-9999. -/
def PyDate.isValid (d : PyDate) : Bool :=
  1 ≤ d.year && d.year ≤ 9999 && 1 ≤ d.month && d.month ≤ 12
    && 1 ≤ d.day && d.day ≤ daysInMonth d.year d.month

/-- Zero-pad to two digits (`%m`, `%d`). -/
def pad2 (n : Nat) : String := if n < 10 then "0" ++ toString n else toString n

/-- `date.strftime("%Y-%m-%d")` (`DATE_FORMAT`): glibc prints `%Y` as the
plain decimal year (no padding) and `%m`/`%d` zero-padded to two
digits. -/
def strftimeYmd (d : PyDate) : String :=
  toString d.year ++ "-" ++ pad2 d.month ++ "-" ++ pad2 d.day

/-- The `date` argument of `get_noise`: omitted (`None`), a
`datetime.date` instance, or any other Python value. -/
inductive DateArg where
  | noDate
  | date (d : PyDate)
  | other
deriving DecidableEq, Repr

/-- Endpoint selection of `get_noise` (lines 115-122): `None` targets the
bulk endpoint, a `datetime.date` the date-scoped endpoint with the date
formatted by `DATE_FORMAT`, and any other value raises `ValueError`. -/
def getNoiseEndpoint : DateArg → Except PyError String
  | .noDate => .ok EP_NOISE_BULK
  | .date d => .ok (EP_NOISE_BULK_DATE (strftimeYmd d))
  | .other =>
    .error (.valueError "date argument must be an instance of datetime.date")

/-- The `while not complete` loop of `get_noise` (lines 128-132), entered
after a page whose `complete` flag was falsy: request the next page with
`params={"offset": offset}`, extend the accumulator with its
`noise_ips`, update the offset, and re-check `complete` (a missing
`complete` key raises `KeyError`). -/
def getNoiseWhile (api_key : String) (timeout : Int) (endpoint : String) :
    List Page → List String → Int → List HttpRequest →
    List HttpRequest × Except PyError (List String)
  | [], _, _, log => (log, .error .noScriptedResponse)
  | page :: rest, noise_ips, offset, log =>
    let req := buildRequest api_key timeout endpoint [("offset", offset)] none
    let log := log ++ [req]
    let noise_ips := noise_ips ++ pageNoiseIps page
    let offset := pageOffset page
    match page.complete with
    | none => (log, .error (.keyError "complete"))
    | some c =>
      if c then (log, .ok noise_ips)
      else getNoiseWhile api_key timeout endpoint rest noise_ips offset log

/-- `get_noise(date)` (lines 98-135) run against a script of page
payloads: select the endpoint, issue the first request with no
parameters, then page until a response's `complete` flag is truthy. -/
def get_noise (api_key : String) (timeout : Int) (date : DateArg)
    (pages : List Page) : List HttpRequest × Except PyError (List String) :=
  match getNoiseEndpoint date with
  | .error e => ([], .error e)
  | .ok endpoint =>
    match pages with
    | [] => ([], .error .noScriptedResponse)
    | page :: rest =>
      let req := buildRequest api_key timeout endpoint [] none
      let log := [req]
      let noise_ips := pageNoiseIps page
      let offset := pageOffset page
      match page.complete with
      | none => (log, .error (.keyError "complete"))
      | some c =>
        if c then (log, .ok noise_ips)
        else getNoiseWhile api_key timeout endpoint rest noise_ips offset log

/-! ### Quick-check lookups (api.py lines 137-180) -/

/-- One JSON object of a quick-check response, as consumed by the code:
its `code` field (`none` models an absent key), the `code_message` the
client may attach, and the remaining fields carried verbatim. -/
structure QuickResult where
  code : Option String
  code_message : Option String := none
  rest : List (String × String) := []
deriving DecidableEq, Repr

/-- Class constant `GreyNoise.CODE_MESSAGES` (lines 38-60). -/
def CODE_MESSAGES : List (String × String) :=
  [ ("0x00", "IP has never been observed scanning the Internet")
  , ("0x01", "IP has been observed by the GreyNoise sensor network")
  , ("0x02", "IP has been observed scanning the GreyNoise sensor network, "
      ++ "but has not completed a full connection, meaning this can be spoofed")
  , ("0x03", "IP is adjacent to another host that has been directly observed "
      ++ "by the GreyNoise sensor network")
  , ("0x04", "RESERVED")
  , ("0x05", "IP is commonly spoofed in Internet-scan activity")
  , ("0x06", "IP has been observed as noise, but this host belongs to a cloud "
      ++ "provider where IPs can be cycled frequently")
  , ("0x07", "IP is invalid")
  , ("0x08", "IP was classified as noise, but has not been observed "
      ++ "engaging in Internet-wide scans or attacks in over 60 days")
  ]

/-- `CODE_MESSAGES.get(code)`: dictionary lookup. -/
def codeMessage (code : String) : Option String :=
  (CODE_MESSAGES.find? (fun p => p.1 = code)).map Prod.snd

/-- Class constant `GreyNoise.UNKNOWN_CODE_MESSAGE`, with the code
interpolated by `str.format`. -/
def UNKNOWN_CODE_MESSAGE (code : String) : String :=
  "Code message unknown: " ++ code

/-- Lines 150-153 (and, per element, 176-179): `result["code"]` (raising
`KeyError` when absent) followed by
`CODE_MESSAGES.get(code, UNKNOWN_CODE_MESSAGE.format(code))`. -/
def attachCodeMessage (result : QuickResult) : Except PyError QuickResult :=
  match result.code with
  | none => .error (.keyError "code")
  | some code =>
    .ok { result with
          code_message := some ((codeMessage code).getD
            (UNKNOWN_CODE_MESSAGE code)) }

/-- The `for result in results` loop of `get_noise_status_bulk` (lines
175-179): attach a `code_message` to every element; the first missing
`code` key raises `KeyError`. -/
def attachAll : List QuickResult → Except PyError (List QuickResult)
  | [] => .ok []
  | r :: rs =>
    match attachCodeMessage r with
    | .error e => .error e
    | .ok r' =>
      match attachAll rs with
      | .error e => .error e
      | .ok rs' => .ok (r' :: rs')

/-- `get_noise_status(ip_address)` (lines 137-154) run against the JSON
object a successful request would return: validate the address strictly,
issue the quick-check request, then attach the code message. -/
def get_noise_status (api_key : String) (timeout : Int) (ip_address : String)
    (response : QuickResult) :
    List HttpRequest × Except PyError QuickResult :=
  match validate_ip ip_address true with
  | .error e => ([], .error e)
  | .ok _ =>
    let req := buildRequest api_key timeout (EP_NOISE_QUICK ip_address) [] none
    ([req], attachCodeMessage response)

/-- The `ip_addresses` argument of `get_noise_status_bulk`: a Python list
of strings, or any non-list value. -/
inductive BulkInput where
  | pylist (l : List String)
  | notList
deriving DecidableEq, Repr

/-- `get_noise_status_bulk(ip_addresses)` (lines 156-180) run against the
JSON array a successful request would return: reject non-list input with
`ValueError`, keep only addresses accepted by non-strict validation,
request the multi-quick endpoint with the filtered list as JSON body,
then attach a code message to every element of the response. -/
def get_noise_status_bulk (api_key : String) (timeout : Int)
    (ip_addresses : BulkInput) (responses : List QuickResult) :
    List HttpRequest × Except PyError (List QuickResult) :=
  match ip_addresses with
  | .notList => ([], .error (.valueError "`ip_addresses` must be a list"))
  | .pylist l =>
    let filtered := l.filter validate_ip_permissive
    let req := buildRequest api_key timeout EP_NOISE_MULTI [] (some filtered)
    ([req], attachAll responses)

/-! ### Helper lemmas -/

/-- The message attached for a `code`: the table entry when the code is
known, the interpolated unknown-code template otherwise. -/
def expectedMessage (code : String) : String :=
  (codeMessage code).getD (UNKNOWN_CODE_MESSAGE code)

/-- A result with the message for `code` attached, the shape of
`attachCodeMessage`'s successful output. -/
def withMessage (r : QuickResult) (code : String) : QuickResult :=
  { r with code_message := some (expectedMessage code) }

/-- Attaching code messages succeeds on a list whose elements all carry a
`code` field. -/
lemma attachAll_ok :
    ∀ rs : List QuickResult, (∀ r ∈ rs, r.code ≠ none) →
      ∃ rs', attachAll rs = .ok rs' := by
  intro rs h
  induction rs with
  | nil => exact ⟨[], rfl⟩
  | cons r rs ih =>
    obtain ⟨c, hc⟩ := Option.ne_none_iff_exists'.mp (h r (by simp))
    obtain ⟨rs', hrs'⟩ := ih (fun x hx => h x (by simp [hx]))
    refine ⟨withMessage r c :: rs', ?_⟩
    simp [attachAll, attachCodeMessage, hc, hrs', withMessage, expectedMessage]

/-- Attaching code messages raises `KeyError("code")` as soon as some
element lacks a `code` field. -/
lemma attachAll_err :
    ∀ rs : List QuickResult, (∃ r ∈ rs, r.code = none) →
      attachAll rs = .error (.keyError "code") := by
  intro rs h
  induction rs with
  | nil => simp at h
  | cons r rs ih =>
    obtain ⟨x, hx, hcode⟩ := h
    rcases List.mem_cons.mp hx with rfl | hx
    · simp [attachAll, attachCodeMessage, hcode]
    · match hr : r.code with
      | none => simp [attachAll, attachCodeMessage, hr]
      | some c => simp [attachAll, attachCodeMessage, hr, ih ⟨x, hx, hcode⟩]

/-- Consuming a run of accepted digits followed by a non-digit (or the
end) accumulates exactly the run's value. -/
lemma parseNum_append (isD : Char → Bool) (v : Char → Nat) (b : Nat) :
    ∀ (cs rest : List Char) (acc : Nat), cs.all isD = true →
      (∀ c, rest.head? = some c → isD c = false) →
      parseNum isD v b (cs ++ rest) acc
        = (cs.foldl (fun a c => b * a + v c) acc, rest) := by
  intro cs
  induction cs with
  | nil =>
    intro rest acc _ hrest
    match rest with
    | [] => simp [parseNum]
    | c :: rest' => simp [parseNum, hrest c rfl]
  | cons c cs ih =>
    intro rest acc hall hrest
    simp only [List.all_cons, Bool.and_eq_true] at hall
    simp [parseNum, hall.1, ih rest _ hall.2 hrest]

/-- A decimal octet followed by a dot (or the end of input) is consumed
by `strtoul0` with its decimal value. -/
lemma strtoul0_decOctet (cs rest : List Char) (hcs : isDecOctet cs = true)
    (hrest : rest.head? = some '.' ∨ rest = []) :
    strtoul0 (cs ++ rest) = (decValue cs, rest) := by
  simp only [isDecOctet, Bool.and_eq_true, Bool.not_eq_true',
    decide_eq_true_eq] at hcs
  obtain ⟨⟨⟨hne, hall⟩, hlz⟩, _⟩ := hcs
  have hdot : ∀ c, rest.head? = some c → c.isDigit = false := by
    intro c hc
    rcases hrest with h | h
    · rw [hc] at h; cases h; decide
    · subst h; cases hc
  match cs with
  | [] => simp at hne
  | c :: cs' =>
    by_cases hc0 : c = '0'
    · subst hc0
      simp only [noLeadingZero, bne_self_eq_false, Bool.false_or,
        List.isEmpty_iff] at hlz
      subst hlz
      rcases hrest with h | h
      · match rest with
        | [] => cases h
        | r :: rest' =>
          cases h
          simp [strtoul0, parseNum, isOctDigitChar, decValue, digitVal]
      · subst h
        simp [strtoul0, decValue, digitVal]
    · have : strtoul0 ((c :: cs') ++ rest)
          = parseNum Char.isDigit digitVal 10 ((c :: cs') ++ rest) 0 := by
        simp [strtoul0, hc0]
      rw [this, parseNum_append Char.isDigit digitVal 10 (c :: cs') rest 0
        hall hdot]
      rfl

/-- Value bound of a decimal octet. -/
lemma decOctet_le (cs : List Char) (hcs : isDecOctet cs = true) :
    decValue cs ≤ 255 := by
  simp only [isDecOctet, Bool.and_eq_true, decide_eq_true_eq] at hcs
  exact hcs.2

/-- The first character of a decimal octet is a digit. -/
lemma decOctet_head (c : Char) (cs : List Char)
    (hcs : isDecOctet (c :: cs) = true) : c.isDigit = true := by
  simp only [isDecOctet, Bool.and_eq_true, List.all_cons] at hcs
  exact hcs.1.1.2.1

/-- One iteration of the `inet_aton` loop on a decimal octet followed by
a dot: the octet's value is stored and the loop continues after the
dot. -/
lemma atonLoop_step (a : Nat) (cs rest : List Char) (parts : List Nat)
    (hcs : isDecOctet cs = true) :
    atonLoop (a + 1) (cs ++ '.' :: rest) parts
      = atonLoop a rest (parts ++ [decValue cs]) := by
  have hs := strtoul0_decOctet cs ('.' :: rest) hcs (Or.inl rfl)
  have hle := decOctet_le cs hcs
  match cs, hcs with
  | c :: cs', hcs =>
    have hdig := decOctet_head c cs' hcs
    have h1 : ¬ (0xffffffff < decValue (c :: cs')) := by omega
    have h2 : ¬ (0xff < decValue (c :: cs')) := by omega
    rw [List.cons_append, atonLoop]
    simp only [List.cons_append] at hs
    simp [hdig, hs, h1, h2]

/-- Final iteration of the `inet_aton` loop: a decimal octet at the end
of the input, with three parts already stored, assembles into an
address. -/
lemma atonLoop_fin (allowed : Nat) (cs : List Char) (a b c : Nat)
    (hcs : isDecOctet cs = true) :
    atonLoop allowed cs [a, b, c]
      = some (decValue cs ||| (a <<< 24) ||| (b <<< 16) ||| (c <<< 8)) := by
  have hs := strtoul0_decOctet cs [] hcs (Or.inr rfl)
  rw [List.append_nil] at hs
  have hle := decOctet_le cs hcs
  match cs, hcs with
  | c₀ :: cs', hcs =>
    have hdig := decOctet_head c₀ cs' hcs
    have h1 : ¬ (0xffffffff < decValue (c₀ :: cs')) := by omega
    have h2 : ¬ (0xff < decValue (c₀ :: cs')) := by omega
    rw [atonLoop]
    simp [hdig, hs, h1, h2, trailingOk, atonAssemble, Nat.or_assoc]

/-- Splitting at dots never yields an empty list of pieces. -/
lemma splitDots_ne_nil : ∀ cs : List Char, splitDots cs ≠ [] := by
  intro cs
  match cs with
  | [] => simp [splitDots]
  | c :: rest =>
    by_cases hc : c = '.'
    · simp [splitDots, hc]
    · simp only [splitDots, if_neg hc]
      match splitDots rest with
      | [] => simp
      | p :: ps => simp

/-- Joining the dot-split pieces recovers the input. -/
lemma joinDots_splitDots : ∀ cs : List Char, joinDots (splitDots cs) = cs := by
  intro cs
  induction cs with
  | nil => rfl
  | cons c rest ih =>
    by_cases hc : c = '.'
    · subst hc
      simp only [splitDots, if_pos rfl]
      match h : splitDots rest with
      | [] => exact absurd h (splitDots_ne_nil rest)
      | p :: ps =>
        rw [h] at ih
        simpa [joinDots] using ih
    · simp only [splitDots, if_neg hc]
      match h : splitDots rest with
      | [] => exact absurd h (splitDots_ne_nil rest)
      | p :: ps =>
        rw [h] at ih
        match ps with
        | [] =>
          simp only [joinDots] at ih ⊢
          rw [ih]
        | q :: qs =>
          simp only [joinDots] at ih ⊢
          rw [List.cons_append, ih]

/-- Any dotted quad in the spec's sense is accepted by `inet_aton`. -/
lemma dottedQuad_aton (s : String) (h : isDottedQuadSpec s = true) :
    (inet_aton s).isSome = true := by
  unfold isDottedQuadSpec at h
  match hsp : splitDots s.toList with
  | [] => rw [hsp] at h; simp at h
  | [a] => rw [hsp] at h; simp at h
  | [a, b] => rw [hsp] at h; simp at h
  | [a, b, c] => rw [hsp] at h; simp at h
  | a :: b :: c :: d :: e :: rest => rw [hsp] at h; simp at h
  | [a, b, c, d] =>
    rw [hsp] at h
    simp only [Bool.and_eq_true] at h
    obtain ⟨⟨⟨ha, hb⟩, hc⟩, hd⟩ := h
    have hjoin := joinDots_splitDots s.toList
    rw [hsp] at hjoin
    simp only [joinDots] at hjoin
    unfold inet_aton
    rw [← hjoin]
    rw [show (3 : Nat) = 2 + 1 from rfl,
      atonLoop_step 2 a (b ++ '.' :: (c ++ '.' :: d)) [] ha]
    rw [show (2 : Nat) = 1 + 1 from rfl,
      atonLoop_step 1 b (c ++ '.' :: d) _ hb]
    rw [show (1 : Nat) = 0 + 1 from rfl, atonLoop_step 0 c d _ hc]
    simp only [List.nil_append, List.cons_append, List.singleton_append]
    rw [atonLoop_fin 0 d (decValue a) (decValue b) (decValue c) hd]
    rfl

/-- A request is well-formed when it is an HTTPS GET on the versioned
base URL carrying the identifying client header, the API key header and
the client's timeout; the property claim C8 asserts of every request the
client issues. -/
def requestWellFormed (api_key : String) (timeout : Int)
    (r : HttpRequest) : Prop :=
  r.method = .GET ∧
  (∃ ep, r.url = String.intercalate "/" [BASE_URL, API_VERSION, ep]) ∧
  r.headers.lookup "X-Request-Client"
    = some ("pyGreyNoise v" ++ toString CLIENT_VERSION) ∧
  r.headers.lookup "key" = some api_key ∧
  r.timeout = timeout

/-- Every request built by `buildRequest` is well-formed. -/
lemma buildRequest_wellFormed (api_key : String) (timeout : Int)
    (ep : String) (params : List (String × Int))
    (json : Option (List String)) :
    requestWellFormed api_key timeout
      (buildRequest api_key timeout ep params json) := by
  exact ⟨rfl, ⟨ep, rfl⟩, rfl, rfl, rfl⟩

/-- Exact behaviour of the `get_noise` while-loop on a script whose next
`k` pages have a falsy `complete` flag and whose page `k` has a truthy
one (later pages unconstrained): it issues one request per consumed page,
each carrying as offset parameter the previous page's offset (the
starting offset for the first), stops at page `k`, and accumulates the
consumed pages' `noise_ips` in order. -/
lemma getNoiseWhile_spec (api_key : String) (timeout : Int) (ep : String) :
    ∀ (k : Nat) (rest : List Page) (junk : List (Option Bool))
      (acc : List String) (o : Int) (log : List HttpRequest),
      rest.map Page.complete
        = List.replicate k (some false) ++ some true :: junk →
      getNoiseWhile api_key timeout ep rest acc o log
        = (log ++ (o :: (rest.take k).map pageOffset).map
            (fun off => buildRequest api_key timeout ep
              [("offset", off)] none),
           .ok (acc ++ ((rest.take (k + 1)).map pageNoiseIps).flatten)) := by
  intro k
  induction k with
  | zero =>
    intro rest junk acc o log h
    simp only [List.replicate, List.nil_append] at h
    match rest with
    | [] => simp at h
    | p :: rest' =>
      simp only [List.map_cons, List.cons.injEq] at h
      simp [getNoiseWhile, h.1]
  | succ k ih =>
    intro rest junk acc o log h
    match rest with
    | [] => simp at h
    | p :: rest' =>
      rw [List.replicate_succ] at h
      simp only [List.map_cons, List.cons_append, List.cons.injEq] at h
      rw [show k + 1 + 1 = (k + 1) + 1 from rfl]
      simp only [List.take_succ_cons, List.map_cons]
      simp only [getNoiseWhile, h.1, Bool.false_eq_true, if_false]
      rw [ih rest' junk (acc ++ pageNoiseIps p) (pageOffset p)
        (log ++ [buildRequest api_key timeout ep [("offset", o)] none]) h.2]
      simp [List.append_assoc]

/-- The `get_noise` while-loop raises `KeyError("complete")` as soon as
a consumed page lacks the `complete` key. -/
lemma getNoiseWhile_keyErr (api_key : String) (timeout : Int) (ep : String) :
    ∀ (k : Nat) (rest : List Page) (junk : List (Option Bool))
      (acc : List String) (o : Int) (log : List HttpRequest),
      rest.map Page.complete = List.replicate k (some false) ++ none :: junk →
      (getNoiseWhile api_key timeout ep rest acc o log).2
        = .error (.keyError "complete") := by
  intro k
  induction k with
  | zero =>
    intro rest junk acc o log h
    simp only [List.replicate, List.nil_append] at h
    match rest with
    | [] => simp at h
    | p :: rest' =>
      simp only [List.map_cons, List.cons.injEq] at h
      simp [getNoiseWhile, h.1]
  | succ k ih =>
    intro rest junk acc o log h
    match rest with
    | [] => simp at h
    | p :: rest' =>
      rw [List.replicate_succ] at h
      simp only [List.map_cons, List.cons_append, List.cons.injEq] at h
      simp only [getNoiseWhile, h.1, Bool.false_eq_true, if_false]
      exact ih rest' junk _ _ _ h.2

/-- The `get_noise` while-loop never raises `ValueError`: its outcomes
are success, `KeyError`, or the script running out. -/
lemma getNoiseWhile_no_valueError (api_key : String) (timeout : Int)
    (ep : String) :
    ∀ (rest : List Page) (acc : List String) (o : Int)
      (log : List HttpRequest) (m : String),
      (getNoiseWhile api_key timeout ep rest acc o log).2
        ≠ .error (.valueError m) := by
  intro rest
  induction rest with
  | nil => intro acc o log m; simp [getNoiseWhile]
  | cons p rest ih =>
    intro acc o log m
    simp only [getNoiseWhile]
    match p.complete with
    | none => simp
    | some c =>
      by_cases hb : c
      · subst hb; simp
      · simp only [Bool.not_eq_true] at hb
        subst hb
        simp only [Bool.false_eq_true, if_false]
        exact ih _ _ _ m

/-- Every request the `get_noise` while-loop appends to the log is a
`buildRequest` on its endpoint with an offset parameter. -/
lemma getNoiseWhile_log (api_key : String) (timeout : Int) (ep : String) :
    ∀ (rest : List Page) (acc : List String) (o : Int)
      (log : List HttpRequest) (r : HttpRequest),
      r ∈ (getNoiseWhile api_key timeout ep rest acc o log).1 →
      r ∈ log ∨ ∃ off, r = buildRequest api_key timeout ep
        [("offset", off)] none := by
  intro rest
  induction rest with
  | nil => intro acc o log r hr; exact .inl hr
  | cons page rest ih =>
    intro acc o log r hr
    simp only [getNoiseWhile] at hr
    have hsplit :
        r ∈ log ++ [buildRequest api_key timeout ep [("offset", o)] none] →
        r ∈ log ∨ ∃ off, r = buildRequest api_key timeout ep
          [("offset", off)] none := by
      intro h
      rcases List.mem_append.mp h with h | h
      · exact .inl h
      · exact .inr ⟨o, by simpa using h⟩
    match hc : page.complete with
    | none => rw [hc] at hr; exact hsplit hr
    | some c =>
      rw [hc] at hr
      by_cases hb : c
      · subst hb; simp only [if_true] at hr; exact hsplit hr
      · simp only [Bool.not_eq_true] at hb
        subst hb
        simp only [if_false, Bool.false_eq_true] at hr
        rcases ih _ _ _ r hr with h | h
        · exact hsplit h
        · exact .inr h

/-- Every request `get_noise` issues is a `buildRequest` on the endpoint
selected from its date argument. -/
lemma get_noise_log (api_key : String) (timeout : Int) (date : DateArg)
    (pages : List Page) (r : HttpRequest)
    (hr : r ∈ (get_noise api_key timeout date pages).1) :
    ∃ ep params, getNoiseEndpoint date = .ok ep ∧
      r = buildRequest api_key timeout ep params none := by
  match hd : getNoiseEndpoint date with
  | .error e => simp [get_noise, hd] at hr
  | .ok ep =>
    refine ⟨ep, ?_⟩
    match pages with
    | [] => simp [get_noise, hd] at hr
    | page :: rest =>
      simp only [get_noise, hd] at hr
      have hsplit : r ∈ [buildRequest api_key timeout ep [] none] →
          ∃ params, (Except.ok ep : Except PyError String) = Except.ok ep ∧
            r = buildRequest api_key timeout ep params none := by
        intro h; exact ⟨[], rfl, by simpa using h⟩
      match hc : page.complete with
      | none => rw [hc] at hr; exact hsplit hr
      | some c =>
        rw [hc] at hr
        by_cases hb : c
        · subst hb; simp only [if_true] at hr; exact hsplit hr
        · simp only [Bool.not_eq_true] at hb
          subst hb
          simp only [if_false, Bool.false_eq_true] at hr
          rcases getNoiseWhile_log api_key timeout ep _ _ _ _ r hr with h | h
          · exact hsplit h
          · obtain ⟨off, rfl⟩ := h
            exact ⟨[("offset", off)], rfl, rfl⟩

/-! ### Claim theorems -/

/-- Claim C1 (code bug).  The claim says every status in 200-299,
inclusive of both ends, returns the JSON payload and every other status
raises a request-failure carrying the status and body.  The code tests
`status_code not in range(200, 299)`, and a Python `range` excludes its
upper bound, so status 299 raises `RequestFailure` even though it is a
2xx success -- contradicting both the claim and `_request`'s own
docstring (":raises RequestFailure: when HTTP status code is not 2xx").
This theorem evaluates the check at status 299 (the failing input) and at
the neighbouring statuses, which behave as the claim says. -/
theorem claim_C1_bug :
    requestCheck 299 "body" "payload" = .error (.requestFailure 299 "body") ∧
    requestCheck 200 "body" "payload" = .ok "payload" ∧
    requestCheck 298 "body" "payload" = .ok "payload" ∧
    requestCheck 199 "body" "payload" = .error (.requestFailure 199 "body") ∧
    requestCheck 300 "body" "payload" = .error (.requestFailure 300 "body") := by
  refine ⟨?_, ?_, ?_, ?_, ?_⟩ <;> simp [requestCheck]

/-- Claim C2 counterexample.  The claim says every string that is not a
valid IPv4 dotted quad -- explicitly including partial forms -- makes
strict validation raise and permissive validation return false.  But
`socket.inet_aton` accepts the classic BSD partial forms: "1.2.3" is not
a dotted quad, yet `validate_ip` succeeds on it in both modes. -/
theorem claim_C2_counterexample :
    isDottedQuadSpec "1.2.3" = false ∧
    validate_ip "1.2.3" true = .ok true ∧
    validate_ip "1.2.3" false = .ok true := by
  exact ⟨rfl, rfl, rfl⟩

/-- Claim C2 as amended.  Every valid IPv4 dotted quad succeeds in both
modes; every string `inet_aton` rejects -- IPv6 addresses and hostnames
among them -- raises `ValueError` in strict mode and returns false in
permissive mode; but acceptance is `inet_aton`'s (which also admits
partial and hex/octal forms), not dotted-quad syntax. -/
theorem claim_C2_amended :
    (∀ s : String, isDottedQuadSpec s = true →
      validate_ip s true = .ok true ∧ validate_ip s false = .ok true) ∧
    (∀ s : String, inet_aton s = none →
      validate_ip s true
          = .error (.valueError ("Invalid IP address: " ++ pyRepr s)) ∧
        validate_ip s false = .ok false) ∧
    inet_aton "::1" = none ∧
    inet_aton "2001:db8::1" = none ∧
    inet_aton "example.com" = none := by
  refine ⟨?_, ?_, rfl, rfl, rfl⟩
  · intro s hs
    obtain ⟨v, hv⟩ := Option.isSome_iff_exists.mp (dottedQuad_aton s hs)
    exact ⟨by simp [validate_ip, hv], by simp [validate_ip, hv]⟩
  · intro s hs
    exact ⟨by simp [validate_ip, hs], by simp [validate_ip, hs]⟩

/-- Witness for claim C2 (amended) at concrete inputs: a dotted quad
accepted in strict mode, and a malformed string rejected in both
modes. -/
theorem claim_C2_amended_witness :
    isDottedQuadSpec "192.168.0.1" = true ∧
    validate_ip "192.168.0.1" true = .ok true ∧
    inet_aton "not an ip" = none ∧
    validate_ip "not an ip" false = .ok false := by
  refine ⟨rfl, (claim_C2_amended.1 "192.168.0.1" rfl).1, rfl,
    (claim_C2_amended.2.1 "not an ip" rfl).2⟩

/-- Claim C4.  A response whose `code` field is present is processed
without failing: `get_noise_status` (and each element of
`get_noise_status_bulk`) attaches a `code_message` equal to the static
table's entry when the code is known, and to the unknown-code template
with the code interpolated ("Code message unknown: <code>") when it is
not. -/
theorem claim_C4 :
    (∀ (r : QuickResult) (code : String), r.code = some code →
      attachCodeMessage r = .ok (withMessage r code)) ∧
    (∀ code : String, codeMessage code = none →
      expectedMessage code = "Code message unknown: " ++ code) ∧
    (∀ code msg : String, codeMessage code = some msg →
      expectedMessage code = msg) ∧
    (∀ (api_key : String) (timeout : Int) (ip : String) (resp : QuickResult)
        (code : String),
      (inet_aton ip).isSome = true → resp.code = some code →
      (get_noise_status api_key timeout ip resp).2
        = .ok (withMessage resp code)) ∧
    (∀ (api_key : String) (timeout : Int) (l : List String)
        (rs : List QuickResult), (∀ r ∈ rs, r.code ≠ none) →
      ∃ rs', (get_noise_status_bulk api_key timeout (.pylist l) rs).2
        = .ok rs') := by
  refine ⟨?_, ?_, ?_, ?_, ?_⟩
  · intro r code hc
    simp [attachCodeMessage, hc, withMessage, expectedMessage]
  · intro code hc; simp [expectedMessage, hc, UNKNOWN_CODE_MESSAGE]
  · intro code msg hc; simp [expectedMessage, hc]
  · intro api_key timeout ip resp code hip hc
    obtain ⟨v, hv⟩ := Option.isSome_iff_exists.mp hip
    simp [get_noise_status, validate_ip, hv, attachCodeMessage, hc,
      withMessage, expectedMessage]
  · intro api_key timeout l rs h
    obtain ⟨rs', hrs'⟩ := attachAll_ok rs h
    exact ⟨rs', by simp [get_noise_status_bulk, hrs']⟩

/-- Witness for claim C4 at concrete inputs: an unknown code "0x99" gets
the interpolated fallback, the known code "0x04" gets the table entry,
and a bulk response whose elements all carry codes is processed without
error. -/
theorem claim_C4_witness :
    attachCodeMessage ⟨some "0x99", none, []⟩
      = .ok ⟨some "0x99", some "Code message unknown: 0x99", []⟩ ∧
    attachCodeMessage ⟨some "0x04", none, []⟩
      = .ok ⟨some "0x04", some "RESERVED", []⟩ ∧
    ∃ rs', (get_noise_status_bulk "k" 7 (.pylist ["8.8.8.8"])
      [⟨some "0x99", none, []⟩]).2 = .ok rs' := by
  refine ⟨?_, ?_, ?_⟩
  · have h := claim_C4.1 ⟨some "0x99", none, []⟩ "0x99" rfl
    simpa [withMessage, expectedMessage, codeMessage, CODE_MESSAGES,
      UNKNOWN_CODE_MESSAGE] using h
  · have h := claim_C4.1 ⟨some "0x04", none, []⟩ "0x04" rfl
    simpa [withMessage, expectedMessage, codeMessage, CODE_MESSAGES,
      UNKNOWN_CODE_MESSAGE] using h
  · exact claim_C4.2.2.2.2 "k" 7 ["8.8.8.8"] [⟨some "0x99", none, []⟩]
      (by simp)

/-- Claim C5.  `get_noise_status_bulk` never raises on malformed
addresses: the JSON body sent to the multi-quick endpoint is the input
list restricted to the addresses non-strict validation accepts; on the
concrete list `["8.8.8.8", "not-an-ip"]` the query carries only
`"8.8.8.8"` and no error is raised; any non-list input raises
`ValueError`. -/
theorem claim_C5 :
    (∀ (api_key : String) (timeout : Int) (rs : List QuickResult),
      get_noise_status_bulk api_key timeout .notList rs
        = ([], .error (.valueError "`ip_addresses` must be a list"))) ∧
    (∀ (api_key : String) (timeout : Int) (l : List String)
        (rs : List QuickResult),
      (get_noise_status_bulk api_key timeout (.pylist l) rs).1
        = [buildRequest api_key timeout EP_NOISE_MULTI []
            (some (l.filter validate_ip_permissive))]) ∧
    (get_noise_status_bulk "k" 7 (.pylist ["8.8.8.8", "not-an-ip"])
        [⟨some "0x00", none, []⟩]
      = ([buildRequest "k" 7 EP_NOISE_MULTI [] (some ["8.8.8.8"])],
         .ok [⟨some "0x00",
           some "IP has never been observed scanning the Internet", []⟩])) := by
  refine ⟨fun _ _ _ => rfl, fun _ _ _ _ => rfl, ?_⟩
  rfl

/-- Claim C8.  Every request issued by the client is a GET to
`{BASE_URL}/{API_VERSION}/{endpoint}` carrying the `X-Request-Client`
header, the `key` header holding the API key, and the client's timeout:
this holds of `_request`'s construction for any endpoint, and of every
request logged by `get_noise`, `get_noise_status` and
`get_noise_status_bulk`. -/
theorem claim_C8 :
    (∀ (api_key : String) (timeout : Int) (ep : String)
        (params : List (String × Int)) (json : Option (List String)),
      (buildRequest api_key timeout ep params json).method = .GET ∧
      (buildRequest api_key timeout ep params json).url
        = String.intercalate "/" [BASE_URL, API_VERSION, ep] ∧
      (buildRequest api_key timeout ep params json).headers.lookup
          "X-Request-Client" = some "pyGreyNoise v1" ∧
      (buildRequest api_key timeout ep params json).headers.lookup "key"
        = some api_key ∧
      (buildRequest api_key timeout ep params json).timeout = timeout) ∧
    (∀ (api_key : String) (timeout : Int) (date : DateArg)
        (pages : List Page) (r : HttpRequest),
      r ∈ (get_noise api_key timeout date pages).1 →
      requestWellFormed api_key timeout r) ∧
    (∀ (api_key : String) (timeout : Int) (ip : String)
        (resp : QuickResult) (r : HttpRequest),
      r ∈ (get_noise_status api_key timeout ip resp).1 →
      requestWellFormed api_key timeout r) ∧
    (∀ (api_key : String) (timeout : Int) (inp : BulkInput)
        (rs : List QuickResult) (r : HttpRequest),
      r ∈ (get_noise_status_bulk api_key timeout inp rs).1 →
      requestWellFormed api_key timeout r) := by
  refine ⟨?_, ?_, ?_, ?_⟩
  · intro api_key timeout ep params json
    exact ⟨rfl, rfl, rfl, rfl, rfl⟩
  · intro api_key timeout date pages r hr
    obtain ⟨ep, params, _, rfl⟩ := get_noise_log api_key timeout date pages r hr
    exact buildRequest_wellFormed api_key timeout ep params none
  · intro api_key timeout ip resp r hr
    match hv : validate_ip ip true with
    | .error e => simp [get_noise_status, hv] at hr
    | .ok b =>
      simp only [get_noise_status, hv, List.mem_singleton] at hr
      subst hr
      exact buildRequest_wellFormed api_key timeout (EP_NOISE_QUICK ip) [] none
  · intro api_key timeout inp rs r hr
    match inp with
    | .notList => simp [get_noise_status_bulk] at hr
    | .pylist l =>
      simp only [get_noise_status_bulk, List.mem_singleton] at hr
      subst hr
      exact buildRequest_wellFormed api_key timeout EP_NOISE_MULTI [] _

/-- Witness for claim C8: the requests logged by concrete runs of the
three operations are well-formed. -/
theorem claim_C8_witness :
    requestWellFormed "k" 7 (buildRequest "k" 7 EP_NOISE_BULK [] none) ∧
    requestWellFormed "k" 7
      (buildRequest "k" 7 (EP_NOISE_QUICK "8.8.8.8") [] none) := by
  constructor
  · exact claim_C8.2.1 "k" 7 .noDate
      [{ noise_ips := some [], offset := none, complete := some true }]
      (buildRequest "k" 7 EP_NOISE_BULK [] none) (by decide)
  · exact claim_C8.2.2.1 "k" 7 "8.8.8.8" { code := some "0x00" }
      (buildRequest "k" 7 (EP_NOISE_QUICK "8.8.8.8") [] none) (by decide)

/-- Claim C9 (implicit).  A quick-check response object lacking a `code`
field makes `get_noise_status` -- and, at any element,
`get_noise_status_bulk` -- fail with `KeyError("code")`; no fallback
`code_message` is attached for a missing field. -/
theorem claim_C9 :
    (∀ r : QuickResult, r.code = none →
      attachCodeMessage r = .error (.keyError "code")) ∧
    (∀ (api_key : String) (timeout : Int) (ip : String)
        (resp : QuickResult), (inet_aton ip).isSome = true →
      resp.code = none →
      (get_noise_status api_key timeout ip resp).2
        = .error (.keyError "code")) ∧
    (∀ (api_key : String) (timeout : Int) (l : List String)
        (rs : List QuickResult), (∃ r ∈ rs, r.code = none) →
      (get_noise_status_bulk api_key timeout (.pylist l) rs).2
        = .error (.keyError "code")) := by
  refine ⟨?_, ?_, ?_⟩
  · intro r hc; simp [attachCodeMessage, hc]
  · intro api_key timeout ip resp hip hc
    obtain ⟨v, hv⟩ := Option.isSome_iff_exists.mp hip
    simp [get_noise_status, validate_ip, hv, attachCodeMessage, hc]
  · intro api_key timeout l rs h
    simp [get_noise_status_bulk, attachAll_err rs h]

/-- Witness for claim C9: a response without a `code` field, alone and
inside a bulk response list whose other element has one. -/
theorem claim_C9_witness :
    (get_noise_status "k" 7 "8.8.8.8" { code := none }).2
      = .error (.keyError "code") ∧
    (get_noise_status_bulk "k" 7 (.pylist ["8.8.8.8"])
        [{ code := some "0x00" }, { code := none }]).2
      = .error (.keyError "code") := by
  constructor
  · exact claim_C9.2.1 "k" 7 "8.8.8.8" { code := none } (by decide) rfl
  · exact claim_C9.2.2 "k" 7 ["8.8.8.8"]
      [{ code := some "0x00" }, { code := none }]
      ⟨{ code := none }, by decide, rfl⟩

/-- Claim C3.  On a script whose pages all have `complete = False`
except the last, which has `complete = True`, `get_noise` issues exactly
one request per page and returns the concatenation, in page order, of
the pages' `noise_ips` lists. -/
theorem claim_C3 :
    ∀ (api_key : String) (timeout : Int) (pages : List Page) (k : Nat),
      pages.map Page.complete
        = List.replicate k (some false) ++ [some true] →
      (get_noise api_key timeout .noDate pages).1.length = pages.length ∧
      (get_noise api_key timeout .noDate pages).2
        = .ok ((pages.map pageNoiseIps).flatten) := by
  intro api_key timeout pages k h
  match pages with
  | [] => rw [List.map_nil] at h; exact absurd h (by simp)
  | p :: rest =>
    match k with
    | 0 =>
      simp only [List.replicate, List.nil_append, List.map_cons,
        List.cons.injEq] at h
      have hrest : rest = [] := by
        have := h.2; simpa using congrArg List.length this
      subst hrest
      simp [get_noise, getNoiseEndpoint, h.1]
    | k + 1 =>
      rw [List.replicate_succ] at h
      simp only [List.map_cons, List.cons_append, List.cons.injEq] at h
      have hlen : rest.length = k + 1 := by
        have := congrArg List.length h.2
        simpa using this
      simp only [get_noise, getNoiseEndpoint, h.1, Bool.false_eq_true,
        if_false]
      rw [getNoiseWhile_spec api_key timeout EP_NOISE_BULK k rest []
        (pageNoiseIps p) (pageOffset p) _ h.2]
      have htake : rest.take (k + 1) = rest :=
        List.take_of_length_le (by omega)
      have htakeLen : (rest.take k).length = k := by
        rw [List.length_take]; omega
      constructor
      · simp only [List.length_append, List.length_cons, List.length_map,
          htakeLen, List.length_nil]
        omega
      · rw [htake]
        simp

/-- Witness for claim C3: a two-page run returns both pages' addresses
in order and issues two requests. -/
theorem claim_C3_witness :
    (get_noise "k" 7 .noDate
      [⟨some ["1.1.1.1"], some 100, some false⟩,
       ⟨some ["2.2.2.2"], none, some true⟩]).1.length = 2 ∧
    (get_noise "k" 7 .noDate
      [⟨some ["1.1.1.1"], some 100, some false⟩,
       ⟨some ["2.2.2.2"], none, some true⟩]).2
      = .ok ["1.1.1.1", "2.2.2.2"] := by
  have h := claim_C3 "k" 7
    [⟨some ["1.1.1.1"], some 100, some false⟩,
     ⟨some ["2.2.2.2"], none, some true⟩] 1 (by rfl)
  simpa [pageNoiseIps] using h

/-- Claim C10 (implicit).  In `get_noise` pagination the first request
carries no offset parameter; each subsequent request's offset parameter
is exactly the previous response's `offset` value, defaulting to -1 when
that response has no `offset` key; the loop stops at the first response
whose `complete` field is true (requests = consumed pages, later script
entries untouched); and a consumed response lacking the `complete` field
raises `KeyError`. -/
theorem claim_C10 :
    (∀ (api_key : String) (timeout : Int) (pages : List Page) (k : Nat)
        (junk : List (Option Bool)),
      pages.map Page.complete
        = List.replicate k (some false) ++ some true :: junk →
      (get_noise api_key timeout .noDate pages).1.map HttpRequest.params
        = [] :: (pages.take k).map (fun p => [("offset", pageOffset p)]) ∧
      (get_noise api_key timeout .noDate pages).1.length = k + 1) ∧
    (∀ (api_key : String) (timeout : Int) (pages : List Page) (k : Nat)
        (junk : List (Option Bool)),
      pages.map Page.complete
        = List.replicate k (some false) ++ none :: junk →
      (get_noise api_key timeout .noDate pages).2
        = .error (.keyError "complete")) := by
  constructor
  · intro api_key timeout pages k junk h
    match pages with
    | [] => rw [List.map_nil] at h; exact absurd h (by simp)
    | p :: rest =>
      match k with
      | 0 =>
        simp only [List.replicate, List.nil_append, List.map_cons,
          List.cons.injEq] at h
        simp [get_noise, getNoiseEndpoint, h.1, buildRequest]
      | k + 1 =>
        rw [List.replicate_succ] at h
        simp only [List.map_cons, List.cons_append, List.cons.injEq] at h
        simp only [get_noise, getNoiseEndpoint, h.1, Bool.false_eq_true,
          if_false]
        rw [getNoiseWhile_spec api_key timeout EP_NOISE_BULK k rest junk
          (pageNoiseIps p) (pageOffset p) _ h.2]
        have hlen : k ≤ rest.length := by
          have := congrArg List.length h.2
          simp at this
          omega
        have htakeLen : (rest.take k).length = k := by
          rw [List.length_take]; omega
        constructor
        · simp only [List.map_append, List.map_cons, List.map_map,
            List.map_nil, List.take_succ_cons]
          rfl
        · simp only [List.length_append, List.length_cons, List.length_map,
            htakeLen, List.length_nil]
          omega
  · intro api_key timeout pages k junk h
    match pages with
    | [] => rw [List.map_nil] at h; exact absurd h (by simp)
    | p :: rest =>
      match k with
      | 0 =>
        simp only [List.replicate, List.nil_append, List.map_cons,
          List.cons.injEq] at h
        simp [get_noise, getNoiseEndpoint, h.1]
      | k + 1 =>
        rw [List.replicate_succ] at h
        simp only [List.map_cons, List.cons_append, List.cons.injEq] at h
        simp only [get_noise, getNoiseEndpoint, h.1, Bool.false_eq_true,
          if_false]
        exact getNoiseWhile_keyErr api_key timeout EP_NOISE_BULK k rest junk
          _ _ _ h.2

/-- Witness for claim C10: a three-page run whose second page lacks an
`offset` key shows the offset parameters `none`, `100`, `-1`, and a
script whose second page lacks `complete` raises `KeyError`. -/
theorem claim_C10_witness :
    (get_noise "k" 7 .noDate
      [⟨some ["a"], some 100, some false⟩,
       ⟨some ["b"], none, some false⟩,
       ⟨some ["c"], some 7, some true⟩]).1.map HttpRequest.params
      = [[], [("offset", 100)], [("offset", -1)]] ∧
    (get_noise "k" 7 .noDate
      [⟨some ["a"], some 100, some false⟩,
       ⟨some ["b"], none, none⟩]).2 = .error (.keyError "complete") := by
  constructor
  · have h := claim_C10.1 "k" 7
      [⟨some ["a"], some 100, some false⟩,
       ⟨some ["b"], none, some false⟩,
       ⟨some ["c"], some 7, some true⟩] 2 [] (by rfl)
    simpa [pageOffset] using h.1
  · exact claim_C10.2 "k" 7
      [⟨some ["a"], some 100, some false⟩, ⟨some ["b"], none, none⟩] 1 []
      (by rfl)

/-- `get_noise` never raises `ValueError` when its date argument is
omitted or is a `datetime.date` instance. -/
lemma get_noise_no_valueError (api_key : String) (timeout : Int)
    (date : DateArg) (hd : date ≠ .other) (pages : List Page) (m : String) :
    (get_noise api_key timeout date pages).2 ≠ .error (.valueError m) := by
  have hep : ∃ ep, getNoiseEndpoint date = .ok ep := by
    match date with
    | .noDate => exact ⟨_, rfl⟩
    | .date d => exact ⟨_, rfl⟩
    | .other => exact absurd rfl hd
  obtain ⟨ep, hep⟩ := hep
  match pages with
  | [] => simp [get_noise, hep]
  | p :: rest =>
    simp only [get_noise, hep]
    match p.complete with
    | none => simp
    | some c =>
      by_cases hb : c
      · subst hb; simp
      · simp only [Bool.not_eq_true] at hb
        subst hb
        simp only [Bool.false_eq_true, if_false]
        exact getNoiseWhile_no_valueError api_key timeout ep rest _ _ _ m

/-- Claim C7.  `get_noise` raises `ValueError` exactly when its date
argument is a value other than `None` or a `datetime.date`; with no date
every request targets the unfiltered bulk endpoint, and with a (valid)
date every request targets the date-scoped endpoint with the date
formatted as in "2019-01-02" (`DATE_FORMAT`, year-month-day with
two-digit month and day). -/
theorem claim_C7 :
    (∀ (api_key : String) (timeout : Int) (pages : List Page),
      get_noise api_key timeout .other pages
        = ([], .error (.valueError
            "date argument must be an instance of datetime.date"))) ∧
    (∀ (api_key : String) (timeout : Int) (pages : List Page)
        (r : HttpRequest),
      r ∈ (get_noise api_key timeout .noDate pages).1 →
      r.url = String.intercalate "/" [BASE_URL, API_VERSION,
        EP_NOISE_BULK]) ∧
    (∀ (api_key : String) (timeout : Int) (pages : List Page) (d : PyDate)
        (r : HttpRequest), d.isValid = true →
      r ∈ (get_noise api_key timeout (.date d) pages).1 →
      r.url = String.intercalate "/" [BASE_URL, API_VERSION,
        EP_NOISE_BULK_DATE (strftimeYmd d)]) ∧
    (∀ (api_key : String) (timeout : Int) (pages : List Page)
        (date : DateArg) (m : String), date ≠ .other →
      (get_noise api_key timeout date pages).2
        ≠ .error (.valueError m)) ∧
    strftimeYmd ⟨2019, 1, 2⟩ = "2019-01-02" := by
  refine ⟨?_, ?_, ?_, ?_, rfl⟩
  · intro api_key timeout pages; rfl
  · intro api_key timeout pages r hr
    obtain ⟨ep, params, hep, rfl⟩ :=
      get_noise_log api_key timeout .noDate pages r hr
    cases hep
    rfl
  · intro api_key timeout pages d r _ hr
    obtain ⟨ep, params, hep, rfl⟩ :=
      get_noise_log api_key timeout (.date d) pages r hr
    cases hep
    rfl
  · intro api_key timeout pages date m hd
    exact get_noise_no_valueError api_key timeout date hd pages m

/-- Witness for claim C7: a concrete valid date targets the date-scoped
endpoint and a concrete dateless run raises no `ValueError`. -/
theorem claim_C7_witness :
    (buildRequest "k" 7 (EP_NOISE_BULK_DATE (strftimeYmd ⟨2019, 1, 2⟩))
        [] none).url
      = String.intercalate "/" [BASE_URL, API_VERSION,
          EP_NOISE_BULK_DATE (strftimeYmd ⟨2019, 1, 2⟩)] ∧
    (get_noise "k" 7 .noDate [⟨some [], none, some true⟩]).2
      ≠ .error (.valueError "boom") := by
  constructor
  · exact claim_C7.2.2.1 "k" 7 [⟨some [], none, some true⟩] ⟨2019, 1, 2⟩
      (buildRequest "k" 7 (EP_NOISE_BULK_DATE (strftimeYmd ⟨2019, 1, 2⟩))
        [] none) (by decide) (by decide)
  · exact claim_C7.2.2.2.1 "k" 7 [⟨some [], none, some true⟩] .noDate "boom"
      (by decide)

/-- Claim C6.  Whenever `load_config` succeeds, each of the three
environment variables overrides the corresponding file value: the
returned key and server equal the environment values when set, the
returned timeout equals a parsable `GREYNOISE_TIMEOUT`, and an
unparsable `GREYNOISE_TIMEOUT` is ignored -- the returned timeout is
then the parse of the file value or, absent that, the default. -/
theorem claim_C6 :
    ∀ (file : Option FileConf) (env : EnvVars) (cfg : Config),
      load_config file env = .ok cfg →
      (∀ k, env.GREYNOISE_API_KEY = some k → cfg.api_key = k) ∧
      (∀ s, env.GREYNOISE_API_SERVER = some s → cfg.api_server = s) ∧
      (∀ t n, env.GREYNOISE_TIMEOUT = some t → pyInt t = some n →
        cfg.timeout = n) ∧
      (∀ t, env.GREYNOISE_TIMEOUT = some t → pyInt t = none →
        pyInt ((file.bind FileConf.timeout).getD DEFAULT_TIMEOUT_STR)
          = some cfg.timeout) := by
  intro file env cfg h
  simp only [load_config] at h
  match henvt : env.GREYNOISE_TIMEOUT with
  | none =>
    rw [henvt] at h
    simp only at h
    match hp : pyInt ((file.bind FileConf.timeout).getD DEFAULT_TIMEOUT_STR)
      with
    | none => rw [hp] at h; cases h
    | some n =>
      rw [hp] at h
      simp only [Except.ok.injEq] at h
      subst h
      refine ⟨?_, ?_, ?_, ?_⟩
      · intro k hk; simp [hk]
      · intro s hs; simp [hs]
      · intro t n ht; cases ht
      · intro t ht; cases ht
  | some t₀ =>
    rw [henvt] at h
    simp only at h
    match hp₀ : pyInt t₀ with
    | some n₀ =>
      rw [hp₀] at h
      simp only [Option.isSome_some, if_true, hp₀, Except.ok.injEq] at h
      subst h
      refine ⟨?_, ?_, ?_, ?_⟩
      · intro k hk; simp [hk]
      · intro s hs; simp [hs]
      · intro t n ht hpn
        cases ht
        rw [hpn] at hp₀
        cases hp₀
        rfl
      · intro t ht hpn
        cases ht
        rw [hpn] at hp₀
        cases hp₀
    | none =>
      rw [hp₀] at h
      simp only [Option.isSome_none, Bool.false_eq_true, if_false] at h
      match hp : pyInt ((file.bind FileConf.timeout).getD DEFAULT_TIMEOUT_STR)
        with
      | none => rw [hp] at h; cases h
      | some n =>
        rw [hp] at h
        simp only [Except.ok.injEq] at h
        subst h
        refine ⟨?_, ?_, ?_, ?_⟩
        · intro k hk; simp [hk]
        · intro s hs; simp [hs]
        · intro t n ht hpn
          cases ht
          rw [hpn] at hp₀
          cases hp₀
        · intro t ht hpn
          rfl

/-- Witness for claim C6 at concrete inputs: the environment overrides a
file value for the key, and an unparsable timeout environment variable
falls back to the file value. -/
theorem claim_C6_witness :
    load_config (some ⟨some "filekey", none, some "33"⟩)
        ⟨some "envkey", some "https://srv", some "nope"⟩
      = .ok ⟨"envkey", "https://srv", 33⟩ ∧
    (⟨"envkey", "https://srv", 33⟩ : Config).api_key = "envkey" ∧
    (⟨"envkey", "https://srv", 33⟩ : Config).api_server = "https://srv" ∧
    pyInt ((some (⟨some "filekey", none, some "33"⟩ : FileConf)
        |>.bind FileConf.timeout).getD DEFAULT_TIMEOUT_STR)
      = some (⟨"envkey", "https://srv", 33⟩ : Config).timeout := by
  have hload : load_config (some ⟨some "filekey", none, some "33"⟩)
      ⟨some "envkey", some "https://srv", some "nope"⟩
      = .ok ⟨"envkey", "https://srv", 33⟩ := by rfl
  have h := claim_C6 (some ⟨some "filekey", none, some "33"⟩)
    ⟨some "envkey", some "https://srv", some "nope"⟩
    ⟨"envkey", "https://srv", 33⟩ hload
  exact ⟨hload, h.1 "envkey" rfl, h.2.1 "https://srv" rfl,
    h.2.2.2 "nope" rfl rfl⟩

end GN
